import Mathlib

set_option linter.unusedVariables false

/-!
Formal model of the `sinnud/tripmap` repository: `clean_csv.py` (a trip-CSV
normalizer) and `tripmap.py` (a map builder).  The scripts' own logic is
embedded as executable Lean functions.  Library calls are modelled as
follows: pandas date parsing and sorting are embedded from their documented
and published behaviour (`pd.to_datetime(format='mixed', errors='raise')`
and numpy's introsort used by `DataFrame.sort_values(kind='quicksort')`);
the external web services (geocoding, routing) are oracle parameters of the
embedding, so that theorems quantify over every possible provider
behaviour.
-/

/-- A calendar date as parsed by `pd.to_datetime`.  pandas stores parsed
dates as `datetime64` integers ordered chronologically; for year/month/day
dates that order coincides with the lexicographic order on `(y, m, d)`,
realised below by `Date.val`. -/
structure Date where
  y : Nat
  m : Nat
  d : Nat
deriving Repr, DecidableEq, Inhabited

/-- Chronological sort key of a date (the `datetime64` comparison order). -/
def Date.val (a : Date) : Nat := a.y * 10000 + a.m * 100 + a.d

/-- Strict `datetime64` comparison: numpy's `LT` on the sort keys. -/
def dateLt (a b : Date) : Bool := a.val < b.val

/-- Outcome of `pd.to_datetime` on one cell, with `errors='raise'` (the
default used by both scripts): a missing cell (NaN from `read_csv`) becomes
`NaT` silently, an unparseable string raises `ValueError`. -/
inductive DateParse where
  | parsed (d : Date)
  | missing
  | unparseable
deriving Repr, DecidableEq, Inhabited

/-- `str.split(sep)` for a one-character separator, structurally on the
character list (same semantics as `String.splitOn` for these inputs). -/
def splitOnChar (sep : Char) : List Char → List (List Char)
  | [] => [[]]
  | c :: rest =>
    let r := splitOnChar sep rest
    if c = sep then [] :: r
    else
      match r with
      | [] => [[c]]
      | h :: t => (c :: h) :: t

/-- Decimal digits to a number (the semantics of `String.toNat?`). -/
def digitsToNat? (cs : List Char) : Option Nat :=
  if cs = [] then none
  else if cs.all Char.isDigit then
    some (cs.foldl (fun n c => n * 10 + (c.toNat - 48)) 0)
  else none

/-- `str.strip()`: remove leading and trailing whitespace. -/
def trimCharList (cs : List Char) : List Char :=
  (((cs.dropWhile Char.isWhitespace).reverse.dropWhile Char.isWhitespace).reverse)

/-- `str.strip()` on a string. -/
def trimStr (s : String) : String := String.mk (trimCharList s.data)

/-- `str.lower()` (ASCII, which covers the synonym vocabulary). -/
def toLowerStr (s : String) : String := String.mk (s.data.map Char.toLower)

/-- Fragment of `pd.to_datetime(..., format='mixed')` (pandas >= 2.0):
the format of each element is inferred individually.  We embed the
ISO-like formats `YYYY-MM-DD` and `YYYY/MM/DD` (month and day possibly
unpadded) used by the trip CSVs; every other non-missing string is
modelled as unparseable, which agrees with the real parser on every string
appearing in this development (e.g. `"bad-date"` raises). -/
def parseDateMixed (s : String) : DateParse :=
  let cs := s.data
  let parts := if cs.contains '/' then splitOnChar '/' cs else splitOnChar '-' cs
  match parts with
  | [ys, ms, ds] =>
    match digitsToNat? ys, digitsToNat? ms, digitsToNat? ds with
    | some y, some m, some d =>
      if ys.length = 4 ∧ ms.length ≤ 2 ∧ ds.length ≤ 2 ∧
          1 ≤ m ∧ m ≤ 12 ∧ 1 ≤ d ∧ d ≤ 31 then
        .parsed ⟨y, m, d⟩
      else .unparseable
    | _, _, _ => .unparseable
  | _ => .unparseable

/-- Parse one date cell: missing cells (`NaN` after `read_csv`) become
`NaT`; strings go through the mixed-format parser. -/
def parseDateCell (c : Option String) : DateParse :=
  match c with
  | none => .missing
  | some s => parseDateMixed s

/-- Zero-padded decimal rendering, as `strftime` field widths. -/
def padNum (width n : Nat) : String :=
  let s := toString n
  String.mk (List.replicate (width - s.length) '0') ++ s

/-- `dt.strftime('%Y-%m-%d')`. -/
def formatDate (a : Date) : String :=
  padNum 4 a.y ++ "-" ++ padNum 2 a.m ++ "-" ++ padNum 2 a.d

/-- The `type_mapping` dict of `clean_csv.py` combined with the
`.get(x, 'flight')` default lookup. -/
def typeMapping (s : String) : String :=
  if s = "car" then "car"
  else if s = "drive" then "car"
  else if s = "driving" then "car"
  else if s = "flight" then "flight"
  else if s = "fly" then "flight"
  else if s = "airline" then "flight"
  else if s = "plane" then "flight"
  else "flight"

/-- `df[type].fillna('flight').str.lower().str.strip()` followed by the
synonym table: a missing value defaults to `flight`; a present value is
lowercased and trimmed and then looked up with default `flight`.
(Lean's `String.trim` strips the same ASCII whitespace that Python's
`str.strip()` strips on the inputs of this development.) -/
def normalizeType (c : Option String) : String :=
  typeMapping (trimStr (toLowerStr (c.getD "flight")))

/-!
### numpy `argsort(kind='quicksort')`

`df.sort_values(by=col)` (pandas default `kind='quicksort'`) argsorts the
key column with numpy's introsort (`numpy/core/src/npysort/quicksort.c.src`,
function `aquicksort`): a (sub)range of at most `SMALL_QUICKSORT + 1 = 16`
elements is insertion sorted (which is stable); a larger range is
partitioned around a median-of-3 pivot by a Hoare-style scan (which is not
stable); recursion deeper than `2 * floor(log2 n)` partitions falls back to
heapsort.  The functions below mirror that algorithm on a list of indices
`t`, comparing the `Date` keys `keys[t[p]]`.
-/

/-- `INTP_SWAP`: exchange positions `i` and `j` of the index list. -/
def tswap (t : List Nat) (i j : Nat) : List Nat :=
  match t[i]?, t[j]? with
  | some a, some b => (t.set i b).set j a
  | _, _ => t

/-- The key of the index stored at position `p` of `t` (`v[tosort[p]]`). -/
def kAt (keys : List Date) (t : List Nat) (p : Nat) : Date :=
  keys.getD (t.getD p 0) default

/-- One step of the insertion phase: place index `x` into the sorted index
list.  Elements whose key is `<=` the key of `x` stay before `x` (the C
loop shifts only strictly greater keys), so equal keys keep their relative
order. -/
def argInsert (keys : List Date) (x : Nat) : List Nat → List Nat
  | [] => [x]
  | y :: ys =>
    if dateLt (keys.getD x default) (keys.getD y default) then x :: y :: ys
    else y :: argInsert keys x ys

/-- The insertion-sort phase of `aquicksort`, applied to an index list in
left-to-right order. -/
def argInsertionSort (keys : List Date) (l : List Nat) : List Nat :=
  l.foldl (fun acc x => argInsert keys x acc) []

/-- `do ++pi; while (LT(v[tosort[pi]], vp))`. -/
def scanUp (keys : List Date) (t : List Nat) (vp : Date) (p : Nat) : Nat → Nat
  | 0 => p + 1
  | fuel + 1 =>
    let q := p + 1
    if dateLt (kAt keys t q) vp then scanUp keys t vp q fuel else q

/-- `do --pj; while (LT(vp, v[tosort[pj]]))`. -/
def scanDown (keys : List Date) (t : List Nat) (vp : Date) (p : Nat) : Nat → Nat
  | 0 => p - 1
  | fuel + 1 =>
    let q := p - 1
    if dateLt vp (kAt keys t q) then scanDown keys t vp q fuel else q

/-- The Hoare partition scan of `aquicksort` (`for (;;) { ... }`): advance
both scans, stop when they cross, otherwise swap and continue.  Returns the
final index array and the crossing position `pi`. -/
def partitionLoop (keys : List Date) (vp : Date) (t : List Nat) (pi pj : Nat) :
    Nat → List Nat × Nat
  | 0 => (t, pi)
  | fuel + 1 =>
    let pi' := scanUp keys t vp pi (pj + 2)
    let pj' := scanDown keys t vp pj (pj + 2)
    if pj' ≤ pi' then (t, pi')
    else partitionLoop keys vp (tswap t pi' pj') pi' pj' fuel

/-- One sift-down of numpy's `aheapsort` (1-indexed positions `i ∈ [1, n]`
living at list positions `i - 1`), with the "hole" optimisation of the C
code rewritten as successive swaps, which yields the same final order. -/
def siftDown (keys : List Date) (t : List Nat) (i n : Nat) : Nat → List Nat
  | 0 => t
  | fuel + 1 =>
    let j := 2 * i
    if j ≤ n then
      let j := if j < n ∧ dateLt (kAt keys t (j - 1)) (kAt keys t j) then j + 1 else j
      if dateLt (kAt keys t (i - 1)) (kAt keys t (j - 1)) then
        siftDown keys (tswap t (i - 1) (j - 1)) j n fuel
      else t
    else t

/-- The heapify loop of `aheapsort`: sift every internal node, highest
index first (`for (l = n >> 1; l > 0; --l)`). -/
def heapifyAux (keys : List Date) (t : List Nat) (n : Nat) : Nat → List Nat
  | 0 => t
  | c + 1 => heapifyAux keys (siftDown keys t (c + 1) n (n + 2)) n c

/-- The extraction loop of `aheapsort`: swap the root with the last heap
element, shrink the heap, re-sift the root. -/
def heapExtract (keys : List Date) (t : List Nat) : Nat → List Nat
  | 0 => t
  | 1 => t
  | n + 2 =>
    heapExtract keys (siftDown keys (tswap t 0 (n + 1)) 1 (n + 1) (n + 3)) (n + 1)

/-- numpy `aheapsort` on an index list (fallback of the introsort at
partition-depth exhaustion). -/
def argHeapSort (keys : List Date) (l : List Nat) : List Nat :=
  heapExtract keys (heapifyAux keys l l.length (l.length / 2)) l.length

/-- Apply `f` to the inclusive subrange `[lo, hi]` of `t`, in place. -/
def applyRange (t : List Nat) (lo hi : Nat) (f : List Nat → List Nat) : List Nat :=
  t.take lo ++ f ((t.drop lo).take (hi + 1 - lo)) ++ t.drop (hi + 1)

/-- The main loop of `aquicksort` on the inclusive range `[lo, hi]`:
ranges of at most 16 elements (`pr - pl <= SMALL_QUICKSORT = 15`) are
insertion sorted; at `depth = 0` the range is heapsorted; otherwise the
range is partitioned with a median-of-3 pivot and both sides are processed
(the C code pushes one side on an explicit stack, which processes the same
disjoint ranges).  `fuel` bounds the recursion and is chosen large enough
never to run out. -/
def aqsortRec (keys : List Date) (t : List Nat) (lo hi depth : Nat) : Nat → List Nat
  | 0 => t
  | fuel + 1 =>
    if hi ≤ lo + 15 then
      applyRange t lo hi (argInsertionSort keys)
    else if depth = 0 then
      applyRange t lo hi (argHeapSort keys)
    else
      let pm := lo + (hi - lo) / 2
      let t1 := if dateLt (kAt keys t pm) (kAt keys t lo) then tswap t pm lo else t
      let t2 := if dateLt (kAt keys t1 hi) (kAt keys t1 pm) then tswap t1 hi pm else t1
      let t3 := if dateLt (kAt keys t2 pm) (kAt keys t2 lo) then tswap t2 pm lo else t2
      let vp := kAt keys t3 pm
      let t4 := tswap t3 pm (hi - 1)
      let tp := partitionLoop keys vp t4 lo (hi - 1) (hi + 2)
      -- The C scans cannot pass the median-of-3 sentinels, so the crossing
      -- position always satisfies `lo < pi < hi`; the clamp makes that
      -- invariant explicit (on genuine runs it never alters the value).
      let p := max lo (min tp.2 (hi - 1))
      let t5 := tswap tp.1 p (hi - 1)
      aqsortRec keys (aqsortRec keys t5 lo (p - 1) (depth - 1) fuel) (p + 1) hi
        (depth - 1) fuel

/-- `npy_get_msb`: the position of the most significant bit,
`floor(log2 n)`, written with structural fuel so that it reduces inside
the kernel. -/
def log2Fuel : Nat → Nat → Nat
  | 0, _ => 0
  | _ + 1, 0 => 0
  | fuel + 1, n => if 2 ≤ n then log2Fuel fuel (n / 2) + 1 else 0

/-- numpy `argsort(kind='quicksort')` over the date keys: the index
permutation that pandas `sort_values` applies to the rows.  The depth limit
is `npy_get_msb(num) * 2 = 2 * floor(log2 n)`. -/
def npArgsortQuick (keys : List Date) : List Nat :=
  aqsortRec keys (List.range keys.length) 0 (keys.length - 1)
    (2 * log2Fuel keys.length keys.length) (2 * keys.length + 2)

/-!
### `clean_csv.py`: `clean_trip_csv`
-/

/-- One data row of a trip CSV, restricted to the three columns the
scripts inspect.  `none` models a missing cell (NaN after `read_csv`). -/
structure CRow where
  date : Option String
  place : Option String
  ty : Option String
deriving Repr, DecidableEq, Inhabited

/-- A loaded trip CSV: the header (column names) and the data rows. -/
structure Csv where
  cols : List String
  rows : List CRow
deriving Repr, DecidableEq

/-- Console warnings of `clean_trip_csv`, with the reported row number
(`idx + 2`: 1-based data row offset by the header line). -/
inductive CleanWarning where
  | invalidDate (rowNo : Nat) (cell : Option String)
  | emptyPlace (rowNo : Nat)
deriving Repr, DecidableEq

/-- The fatal `sys.exit(1)` paths of `clean_trip_csv` (after a successful
`read_csv`). -/
inductive CleanError where
  | missingColumns (found : List String)
  | dateParseError
deriving Repr, DecidableEq

/-- Result of a successful run: the written CSV (same column set, cleaned
rows) and the warnings printed along the way. -/
structure CleanResult where
  outCols : List String
  rows : List CRow
  warnings : List CleanWarning
deriving Repr, DecidableEq

/-- Whether a place cell is "empty": missing, or blank after trimming
(`df[place].isna() | (df[place].str.strip() == '')`). -/
def emptyPlaceCell (r : CRow) : Bool :=
  match r.place with
  | none => true
  | some p => trimStr p = ""

/-- `pd.to_datetime(df[date], format='mixed')`: each row with the outcome
of parsing its date cell. -/
def dateParsePass (rows : List CRow) : List (CRow × DateParse) :=
  rows.map fun r => (r, parseDateCell r.date)

/-- The rows surviving the `NaT` drop (`df = df[valid_dates]`), paired with
their parsed dates. -/
def datedRows (rows : List CRow) : List (CRow × Date) :=
  (dateParsePass rows).filterMap fun p =>
    match p.2 with
    | .parsed d => some (p.1, d)
    | _ => none

/-- `df.sort_values(by=date).reset_index(drop=True)`: rows reordered along
the numpy argsort of their date keys. -/
def sortedRows (rows : List CRow) : List (CRow × Date) :=
  (npArgsortQuick ((datedRows rows).map fun rd => rd.2)).map fun i =>
    (datedRows rows).getD i default

/-- `df[date] = df[date].dt.strftime('%Y-%m-%d')`. -/
def formattedRows (rows : List CRow) : List CRow :=
  (sortedRows rows).map fun rd => { rd.1 with date := some (formatDate rd.2) }

/-- `df = df[~empty_places]`: drop rows with a missing or blank place. -/
def keptRows (rows : List CRow) : List CRow :=
  (formattedRows rows).filter fun r => !emptyPlaceCell r

/-- `df[place] = df[place].str.strip()`. -/
def trimmedRows (rows : List CRow) : List CRow :=
  (keptRows rows).map fun r => { r with place := r.place.map trimStr }

/-- The type-normalization pass, applied only when the `type` column is
present. -/
def finalRows (hasType : Bool) (rows : List CRow) : List CRow :=
  if hasType then
    (trimmedRows rows).map fun r => { r with ty := some (normalizeType r.ty) }
  else trimmedRows rows

/-- `clean_trip_csv` of `clean_csv.py`, from the `read_csv` result to the
written CSV.  Steps, in source order: required-column check (fatal);
`pd.to_datetime(format='mixed')` (raises, hence fatal, on any unparseable
date string; missing cells become `NaT` and are warned about and dropped);
`sort_values` by parsed date (numpy quicksort argsort); date reformatting
to `YYYY-MM-DD`; empty-place warning and drop (row numbers relative to the
sorted frame); place trimming; type normalization when a `type` column is
present. -/
def clean_trip_csv (csv : Csv) : Except CleanError CleanResult :=
  if "date" ∈ csv.cols ∧ "place" ∈ csv.cols then
    if (dateParsePass csv.rows).any fun p => p.2 == DateParse.unparseable then
      .error .dateParseError
    else
      let invalidWarns := (dateParsePass csv.rows).enum.filterMap fun p =>
        if p.2.2 == DateParse.missing then
          some (CleanWarning.invalidDate (p.1 + 2) p.2.1.date)
        else none
      let placeWarns := (formattedRows csv.rows).enum.filterMap fun p =>
        if emptyPlaceCell p.2 then some (CleanWarning.emptyPlace (p.1 + 2)) else none
      .ok ⟨csv.cols, finalRows (csv.cols.contains "type") csv.rows,
           invalidWarns ++ placeWarns⟩
  else .error (.missingColumns csv.cols)

/-- Final path component (`PurePosixPath.name`): the text after the last
`'/'` (modelled for paths without a trailing slash). -/
def lastComponent (cs : List Char) : List Char :=
  cs.foldl (fun acc c => if c = '/' then [] else acc ++ [c]) []

/-- The `PurePosixPath` stem/suffix split of a file name: the suffix starts
at the last dot, provided that dot is neither the first nor past-the-last
character (CPython `pathlib`: `0 < i < len(name) - 1`). -/
def splitStemSuffix (name : List Char) : List Char × List Char :=
  match name.reverse.span (· ≠ '.') with
  | (_, []) => (name, [])
  | (revExt, _dot :: revStem) =>
    if revStem = [] ∨ revExt = [] then (name, [])
    else (revStem.reverse, '.' :: revExt.reverse)

/-- The default output file of `clean_trip_csv` when none is given:
`Path(input_file).stem + '_clean' + Path(input_file).suffix`. -/
def defaultOutputPath (input : String) : String :=
  let name := lastComponent input.toList
  let parts := splitStemSuffix name
  String.mk (parts.1 ++ "_clean".toList ++ parts.2)

/-!
### `tripmap.py`

The geocoding and routing web services are oracle parameters, so every
theorem about the builders holds for every possible provider behaviour.
-/

/-- Outcome of one geocoding call (geopy `Nominatim` behind `RateLimiter`):
a location with coordinates and display address, a "not found" `None`, or a
raised exception (network failure, timeout, service error). -/
inductive GeoOutcome where
  | found (lat lon : ℚ) (address : String)
  | notFound
  | geoError (exnName : String)
deriving Repr, DecidableEq

/-- A geocoding provider, as an oracle from the place cell to an outcome. -/
abbrev Geocoder := Option String → GeoOutcome

/-- Outcome of one routing request — the body of either `try` block of
`get_driving_route` (HTTP call, JSON field access, polyline decode): a
decoded route for an OK status, a non-OK status, or a raised exception
(transport error, malformed body, decode failure). -/
inductive RouteResult where
  | okRoute (coords : List (ℚ × ℚ))
  | badStatus (status : String)
  | exnRaised (exnName : String)
deriving Repr, DecidableEq

/-- A routing provider, as an oracle from the two endpoints to an outcome. -/
abbrev Router := (ℚ × ℚ) → (ℚ × ℚ) → RouteResult

/-- `get_driving_route`: with a truthy API key the Google branch runs,
otherwise the OSRM branch (`if google_api_key:` — Python truthiness, so
both `None` and the empty string select OSRM).  On a non-OK status or a
raised exception either branch prints a warning and returns `None`; the
function never raises. -/
def get_driving_route (google osrm : Router) (s e : ℚ × ℚ)
    (key : Option String) : Option (List (ℚ × ℚ)) :=
  if key.getD "" = "" then
    match osrm s e with
    | .okRoute cs => some cs
    | .badStatus _ => none
    | .exnRaised _ => none
  else
    match google s e with
    | .okRoute cs => some cs
    | .badStatus _ => none
    | .exnRaised _ => none

/-- A row of the map builder's frame after date parsing and sorting. -/
structure SRow where
  row : CRow
  pdate : DateParse
deriving Repr, DecidableEq, Inhabited

/-- A row after the geocoding pass (the added `latitude` / `longitude` /
`geocoded_address` columns). -/
structure GRow where
  row : CRow
  pdate : DateParse
  lat : Option ℚ
  lon : Option ℚ
  addr : Option String
deriving Repr, DecidableEq, Inhabited

/-- `geocode_places`: one rate-limited call per row; a found location
records its coordinates and address; "not found" and any raised exception
record `(None, None)` and the loop continues with the next row. -/
def geocode_places (g : Geocoder) (rows : List SRow) : List GRow :=
  rows.map fun r =>
    match g r.row.place with
    | .found la lo a => ⟨r.row, r.pdate, some la, some lo, some a⟩
    | .notFound => ⟨r.row, r.pdate, none, none, none⟩
    | .geoError _ => ⟨r.row, r.pdate, none, none, none⟩

/-- The fatal terminations of either map builder (after `read_csv`). -/
inductive MapError where
  | missingColumns (found : List String)
  | dateParseError
  | noValidLocations
  | natStrftime
deriving Repr, DecidableEq

/-- The shared front of both map builders: column validation, the `type`
column default (`df[type] = 'flight'` when absent), `pd.to_datetime`
(uncaught here, so fatal on an unparseable date string), `sort_values` by
date (`NaT` rows placed last in original order, as pandas `nargsort`
does), `geocode_places`, and the `dropna` filter.  Returns `df_valid` as
(retained frame index, row) pairs: `dropna` does not reset the index, so
the retained indices are positions in the full sorted frame, not positions
in `df_valid`. -/
def buildValidRows (g : Geocoder) (csv : Csv) :
    Except MapError (List (Nat × GRow)) :=
  if "date" ∈ csv.cols ∧ "place" ∈ csv.cols then
    let rows := if csv.cols.contains "type" then csv.rows
                else csv.rows.map fun r => { r with ty := some "flight" }
    let parses := rows.map fun r => (r, parseDateCell r.date)
    if parses.any fun p => p.2 == DateParse.unparseable then
      .error .dateParseError
    else
      let dated := parses.filterMap fun p =>
        match p.2 with
        | .parsed d => some (p.1, d)
        | _ => none
      let t := npArgsortQuick (dated.map fun rd => rd.2)
      let sortedValid : List SRow := t.map fun i =>
        ⟨(dated.getD i default).1, .parsed (dated.getD i default).2⟩
      let natRows : List SRow := parses.filterMap fun p =>
        if p.2 == DateParse.missing then some ⟨p.1, .missing⟩ else none
      let geocoded := geocode_places g (sortedValid ++ natRows)
      let valid := geocoded.enum.filter fun p => p.2.lat.isSome && p.2.lon.isSome
      if valid.isEmpty then .error .noValidLocations
      else .ok valid
  else .error (.missingColumns csv.cols)

/-- `start_row.get(type_column, 'flight')` with the `pd.isna` check and
`str(trip_type).lower().strip()`. -/
def tripTypeOf (r : GRow) : String :=
  trimStr (toLowerStr (r.row.ty.getD "flight"))

/-- `trip_type in ['car', 'drive', 'driving']`. -/
def isCarType (s : String) : Bool :=
  s == "car" || s == "drive" || s == "driving"

/-- The `(latitude, longitude)` pair of a geocoded row (the builders only
read it on rows that passed `dropna`, where both are present). -/
def coordsOf (r : GRow) : ℚ × ℚ := (r.lat.getD 0, r.lon.getD 0)

/-- One `route_segments` entry of `create_animated_trip_map`. -/
structure Seg where
  start_idx : Nat
  end_idx : Nat
  coords : List (ℚ × ℚ)
  is_car : Bool
  start_place : Option String
  end_place : Option String
deriving Repr, DecidableEq

/-- One `folium.PolyLine` added to a map (popup text omitted). -/
structure PolyL where
  coords : List (ℚ × ℚ)
  color : String
  weight : ℚ
  opacity : ℚ
  dash : Option String
deriving Repr, DecidableEq

/-- One `folium.CircleMarker` of the animated builder; the popup/tooltip
texts are reduced to the stop numbering they display
(`Stop {idx+1} of {len(df_valid)}`). -/
structure CMarker where
  loc : ℚ × ℚ
  radius : ℚ
  color : String
  fillColor : String
  fillOpacity : ℚ
  weight : ℚ
  stopNo : Nat
  stopOf : Nat
deriving Repr, DecidableEq

/-- The rendered artifacts of `create_animated_trip_map` (the JavaScript
injection into the saved HTML is not modelled; `df_valid` is exposed for
specification). -/
structure AnimMap where
  center : ℚ × ℚ
  polylines : List PolyL
  markers : List CMarker
  segments : List Seg
  valid : List (Nat × GRow)
deriving Repr, DecidableEq

/-- Mean of a list of rationals (`Series.mean()` on the coordinates). -/
def meanQ (l : List ℚ) : ℚ := l.sum / l.length

/-- One leg of `create_animated_trip_map`'s route loop: a car leg draws a
solid green line over the routed path, or over the straight 2-point
fallback when `get_driving_route` returns `None` (same solid style either
way); a flight draws a dashed blue straight line.  The stored animation
segment keeps the same path. -/
def animLeg (google osrm : Router) (key : Option String) (i : Nat)
    (s e : GRow) : Seg × PolyL :=
  let sc := coordsOf s
  let ec := coordsOf e
  let car := isCarType (tripTypeOf s)
  let path := if car then (get_driving_route google osrm sc ec key).getD [sc, ec]
              else [sc, ec]
  let pl := if car then PolyL.mk path "green" 4 (6/10) none
            else PolyL.mk [sc, ec] "blue" 3 (6/10) (some "10, 5")
  (⟨i, i + 1, path, car, s.row.place, e.row.place⟩, pl)

/-- One destination marker of the animated builder.  `idx` is the row's
retained frame index from `df_valid.iterrows()` (not its position inside
`df_valid`); the fill color is `red` for `idx == 0`, `green` for
`idx == len(df_valid) - 1`, `blue` otherwise. -/
def animMarker (nValid idx : Nat) (r : GRow) : CMarker :=
  ⟨coordsOf r, 8, "black",
    if idx = 0 then "red" else if idx = nValid - 1 then "green" else "blue",
    9/10, 2, idx + 1, nValid⟩

/-- `create_animated_trip_map`, from the `read_csv` result to the rendered
map (`row[date].strftime` in the marker loop raises on a `NaT` date, which
is modelled as the fatal `natStrftime` outcome). -/
def create_animated_trip_map (g : Geocoder) (google osrm : Router)
    (key : Option String) (csv : Csv) : Except MapError AnimMap :=
  match buildValidRows g csv with
  | .error e => .error e
  | .ok valid =>
    if valid.any fun p => p.2.pdate == DateParse.missing then
      .error .natStrftime
    else
      let n := valid.length
      let center := (meanQ (valid.map fun p => p.2.lat.getD 0),
                     meanQ (valid.map fun p => p.2.lon.getD 0))
      let pls := (List.range (n - 1)).map fun i =>
        (animLeg google osrm key i (valid.getD i default).2 (valid.getD (i + 1) default).2).2
      let segs := (List.range (n - 1)).map fun i =>
        (animLeg google osrm key i (valid.getD i default).2 (valid.getD (i + 1) default).2).1
      let markers := valid.map fun p => animMarker n p.1 p.2
      .ok ⟨center, pls, markers, segs, valid⟩

/-- One `folium.Marker` of the basic builder: the pin icon color and the
numbered `DivIcon` label. -/
structure BMarker where
  loc : ℚ × ℚ
  iconColor : String
  labelNo : Nat
deriving Repr, DecidableEq

/-- The rendered artifacts of `create_trip_map`. -/
structure BasicMap where
  center : ℚ × ℚ
  markers : List BMarker
  polylines : List PolyL
  valid : List (Nat × GRow)
deriving Repr, DecidableEq

/-- One leg of `create_trip_map`'s connection loop: a routed car leg is a
solid green line; a failed car route falls back to a dashed green straight
line (`dash_array='5, 5'`); a flight is a dashed blue straight line. -/
def basicLeg (google osrm : Router) (key : Option String)
    (s e : GRow) : PolyL :=
  let sc := coordsOf s
  let ec := coordsOf e
  if isCarType (tripTypeOf s) then
    match get_driving_route google osrm sc ec key with
    | some rc => PolyL.mk rc "green" 3 (8/10) none
    | none => PolyL.mk [sc, ec] "green" 3 (6/10) (some "5, 5")
  else PolyL.mk [sc, ec] "blue" 2 (7/10) (some "10, 5")

/-- `create_trip_map` (the basic, non-animated builder). -/
def create_trip_map (g : Geocoder) (google osrm : Router)
    (key : Option String) (csv : Csv) : Except MapError BasicMap :=
  match buildValidRows g csv with
  | .error e => .error e
  | .ok valid =>
    if valid.any fun p => p.2.pdate == DateParse.missing then
      .error .natStrftime
    else
      let n := valid.length
      let center := (meanQ (valid.map fun p => p.2.lat.getD 0),
                     meanQ (valid.map fun p => p.2.lon.getD 0))
      let markers := valid.map fun p =>
        BMarker.mk (coordsOf p.2)
          (if p.1 = 0 then "red" else if p.1 = n - 1 then "green" else "blue")
          (p.1 + 1)
      let polylines := (List.range (n - 1)).map fun i =>
        basicLeg google osrm key (valid.getD i default).2 (valid.getD (i + 1) default).2
      .ok ⟨center, markers, polylines, valid⟩

/-!
### Specification-side definitions

Used to state the claims; `stableLex` is the order a stable sort by date
would realise, `finalRow`/`keptIdx` name the transformation and the index
sequence along which `clean_trip_csv` emits its output rows.
-/

/-- The parsed date of a cell, on cells that do parse. -/
def cellDate (c : Option String) : Date :=
  match parseDateCell c with
  | .parsed d => d
  | _ => default

/-- Boolean test for a successfully parsed date cell. -/
def isParsedB : DateParse → Bool
  | .parsed _ => true
  | _ => false

/-- The key/provenance order realised by a stable sort over the date keys:
position `i` strictly precedes position `j` when its key is smaller, or
when the keys are equal and `i` came first in the input. -/
abbrev stableLex (keys : List Date) (i j : Nat) : Prop :=
  (keys.getD i default).val < (keys.getD j default).val ∨
    ((keys.getD i default).val = (keys.getD j default).val ∧ i < j)

/-- The transformation `clean_trip_csv` applies to each surviving row:
date reformatted to `YYYY-MM-DD`, place trimmed, type normalized when the
`type` column exists. -/
def finalRow (hasType : Bool) (r : CRow) : CRow :=
  let r1 : CRow := { r with date := some (formatDate (cellDate r.date)) }
  let r2 : CRow := { r1 with place := r1.place.map trimStr }
  if hasType then { r2 with ty := some (normalizeType r2.ty) } else r2

/-- The index sequence (into the input rows) along which `clean_trip_csv`
emits its output when every date parses: the numpy argsort of the date
keys, restricted to rows with a non-blank place. -/
def keptIdx (csv : Csv) : List Nat :=
  (npArgsortQuick (csv.rows.map fun r => cellDate r.date)).filter
    (fun i => !emptyPlaceCell (csv.rows.getD i default))

/-!
### Concrete claim fixtures
-/

/-- 17 rows sharing one date (17 is the smallest size at which numpy's
quicksort partitions instead of insertion-sorting, losing stability). -/
def csvSameDate17 : Csv :=
  ⟨["date", "place"],
   (List.range 17).map fun i => ⟨some "2025-01-01", some (toString i), none⟩⟩

/-- The spec's own example input: Paris/Tokyo rows with parseable dates and
a `bad-date` Rome row. -/
def csvRomeExample : Csv :=
  ⟨["date", "place"],
   [⟨some "2025-03-05", some "Paris", none⟩,
    ⟨some "2025-01-10", some "Tokyo", none⟩,
    ⟨some "bad-date", some "Rome", none⟩]⟩

/-- A single already-clean row except that its place carries surrounding
whitespace (still non-blank after trimming). -/
def csvPaddedPlace : Csv :=
  ⟨["date", "place"], [⟨some "2025-01-10", some " Paris ", none⟩]⟩

/-- A geocoder oracle for the fixtures: fails on place `"X"`, resolves
`"A"`, `"B"`, `"Y"`, `"Z"`. -/
def geoFixture : Geocoder := fun p =>
  match p with
  | some "X" => .geoError "GeocoderTimedOut"
  | some "Y" => .found 2 2 "Y, Country"
  | some "Z" => .found 3 3 "Z, Country"
  | some "A" => .found 1 1 "A, Country"
  | some "B" => .found 2 2 "B, Country"
  | _ => .notFound

/-- A routing oracle that always raises a transport error. -/
def routerDown : Router := fun _ _ => .exnRaised "ConnectionError"

/-- A two-row trip whose first leg is a car leg. -/
def csvCarLeg : Csv :=
  ⟨["date", "place", "type"],
   [⟨some "2025-01-01", some "A", some "car"⟩,
    ⟨some "2025-01-02", some "B", some "flight"⟩]⟩

/-- A three-row trip whose first place (`"X"`) fails to geocode. -/
def csvDropFirst : Csv :=
  ⟨["date", "place"],
   [⟨some "2025-01-01", some "X", none⟩,
    ⟨some "2025-01-02", some "Y", none⟩,
    ⟨some "2025-01-03", some "Z", none⟩]⟩

/-- A two-row trip with a free-text `Drive` type on the first row. -/
def csvDriveLeg : Csv :=
  ⟨["date", "place", "type"],
   [⟨some "2025-01-01", some "A", some "Drive"⟩,
    ⟨some "2025-01-02", some "B", none⟩]⟩

/-- Three rows with a duplicate date, for the stable-sort witness. -/
def csvTie : Csv :=
  ⟨["date", "place"],
   [⟨some "2025-01-02", some "A", none⟩,
    ⟨some "2025-01-01", some "B", none⟩,
    ⟨some "2025-01-01", some "C", none⟩]⟩

/-- A clean two-row CSV (trimmed places, parseable dates), for the
round-trip witness. -/
def csvCleanPair : Csv :=
  ⟨["date", "place"],
   [⟨some "2025-02-01", some "Lyon", none⟩,
    ⟨some "2025/1/7", some "Nice", none⟩]⟩

/-- A CSV whose header lacks the `date` column. -/
def csvNoDateCol : Csv :=
  ⟨["day", "place"], [⟨none, some "Paris", none⟩]⟩

/-- The animated map built from `csvDriveLeg` (used to witness the
leg-mode claim at a concrete input). -/
def animDriveLeg : AnimMap :=
  (create_animated_trip_map geoFixture routerDown routerDown none
    csvDriveLeg).toOption.getD ⟨(0, 0), [], [], [], []⟩

/-- Its first animation segment. -/
def segDriveLeg : Seg :=
  animDriveLeg.segments.headD ⟨0, 0, [], false, none, none⟩

/-- A one-row frame whose place geocodes to "not found", for the geocoder
witness. -/
def srowNowhere : SRow :=
  ⟨⟨some "2025-01-01", some "Nowhere", none⟩, .parsed ⟨2025, 1, 1⟩⟩

/-!
## Theorems

### Permutation facts about the embedded numpy sort
-/

theorem set_self_of_getElem? {t : List Nat} {i a : Nat}
    (h : t[i]? = some a) : t.set i a = t := by
  induction t generalizing i with
  | nil => simp at h
  | cons x xs ih =>
    cases i with
    | zero =>
      simp only [List.getElem?_cons_zero, Option.some.injEq] at h
      subst h; rfl
    | succ n =>
      simp only [List.getElem?_cons_succ] at h
      simpa [List.set] using ih h

theorem cons_set_perm {l : List Nat} {k a b : Nat} (h : l[k]? = some b) :
    (b :: l.set k a).Perm (a :: l) := by
  induction l generalizing k with
  | nil => simp at h
  | cons c cs ih =>
    cases k with
    | zero =>
      simp only [List.getElem?_cons_zero, Option.some.injEq] at h
      subst h
      exact List.Perm.swap a c cs
    | succ k =>
      simp only [List.getElem?_cons_succ] at h
      refine (List.Perm.swap c b (cs.set k a)).trans ?_
      refine ((ih h).cons c).trans ?_
      exact List.Perm.swap a c cs

theorem set_set_perm {t : List Nat} {i j a b : Nat} (hij : i < j)
    (hi : t[i]? = some a) (hj : t[j]? = some b) :
    ((t.set i b).set j a).Perm t := by
  induction t generalizing i j with
  | nil => simp at hi
  | cons x xs ih =>
    obtain ⟨j', rfl⟩ : ∃ j', j = j' + 1 := ⟨j - 1, by omega⟩
    cases i with
    | zero =>
      simp only [List.getElem?_cons_zero, Option.some.injEq] at hi
      simp only [List.getElem?_cons_succ] at hj
      subst hi
      exact cons_set_perm hj
    | succ i' =>
      simp only [List.getElem?_cons_succ] at hi hj
      exact (ih (by omega) hi hj).cons x

theorem tswap_perm (t : List Nat) (i j : Nat) : (tswap t i j).Perm t := by
  cases hi : t[i]? with
  | none => simp [tswap, hi]
  | some a =>
    cases hj : t[j]? with
    | none => simp [tswap, hi, hj]
    | some b =>
      simp only [tswap, hi, hj]
      rcases Nat.lt_trichotomy i j with h | h | h
      · exact set_set_perm h hi hj
      · subst h
        rw [hi] at hj
        injection hj with hba
        subst hba
        rw [List.set_set, set_self_of_getElem? hi]
      · rw [List.set_comm _ _ _ (Nat.ne_of_gt h)]
        exact set_set_perm h hj hi

theorem condSwap_perm (c : Prop) [Decidable c] (t : List Nat) (i j : Nat) :
    (if c then tswap t i j else t).Perm t := by
  split
  · exact tswap_perm t i j
  · exact .refl t

theorem argInsert_perm (keys : List Date) (x : Nat) (l : List Nat) :
    (argInsert keys x l).Perm (x :: l) := by
  induction l with
  | nil => simp [argInsert]
  | cons y ys ih =>
    rw [argInsert]
    split
    · exact .refl _
    · exact (ih.cons y).trans (List.Perm.swap x y ys)

theorem argInsFold_perm (keys : List Date) :
    ∀ (l acc : List Nat),
      (l.foldl (fun a x => argInsert keys x a) acc).Perm (acc ++ l)
  | [], acc => by simp
  | x :: l, acc => by
    have h1 := argInsFold_perm keys l (argInsert keys x acc)
    have h2 : (argInsert keys x acc ++ l).Perm (acc ++ x :: l) :=
      ((argInsert_perm keys x acc).append_right l).trans List.perm_middle.symm
    exact h1.trans h2

theorem argInsertionSort_perm (keys : List Date) (l : List Nat) :
    (argInsertionSort keys l).Perm l := by
  simpa using argInsFold_perm keys l []

theorem partitionLoop_perm (keys : List Date) (vp : Date) :
    ∀ (fuel : Nat) (t : List Nat) (pi pj : Nat),
      (partitionLoop keys vp t pi pj fuel).1.Perm t
  | 0, t, pi, pj => .refl t
  | fuel + 1, t, pi, pj => by
    rw [partitionLoop]
    split
    · exact .refl t
    · exact (partitionLoop_perm keys vp fuel _ _ _).trans (tswap_perm _ _ _)

theorem siftDown_perm (keys : List Date) :
    ∀ (fuel : Nat) (t : List Nat) (i n : Nat), (siftDown keys t i n fuel).Perm t
  | 0, t, i, n => .refl t
  | fuel + 1, t, i, n => by
    have step : ∀ J : Nat,
        (if dateLt (kAt keys t (i - 1)) (kAt keys t (J - 1)) = true then
          siftDown keys (tswap t (i - 1) (J - 1)) J n fuel else t).Perm t := by
      intro J
      split
      · exact (siftDown_perm keys fuel _ _ _).trans (tswap_perm _ _ _)
      · exact .refl t
    rw [siftDown]
    split
    · split
      · exact step _
      · exact step _
    · exact .refl t

theorem heapifyAux_perm (keys : List Date) :
    ∀ (c : Nat) (t : List Nat) (n : Nat), (heapifyAux keys t n c).Perm t
  | 0, t, n => .refl t
  | c + 1, t, n =>
    (heapifyAux_perm keys c _ n).trans (siftDown_perm keys _ t _ _)

theorem heapExtract_perm (keys : List Date) :
    ∀ (m : Nat) (t : List Nat), (heapExtract keys t m).Perm t
  | 0, t => .refl t
  | 1, t => .refl t
  | n + 2, t =>
    (heapExtract_perm keys (n + 1) _).trans
      ((siftDown_perm keys _ _ _ _).trans (tswap_perm _ _ _))

theorem argHeapSort_perm (keys : List Date) (l : List Nat) :
    (argHeapSort keys l).Perm l :=
  (heapExtract_perm keys _ _).trans (heapifyAux_perm keys _ _ _)

theorem applyRange_perm (t : List Nat) (lo hi : Nat) (f : List Nat → List Nat)
    (hlo : lo ≤ hi + 1) (hf : ∀ l, (f l).Perm l) :
    (applyRange t lo hi f).Perm t := by
  have hdd : (t.drop lo).drop (hi + 1 - lo) = t.drop (hi + 1) := by
    rw [List.drop_drop]; congr 1; omega
  have hsplit : t = t.take lo ++ ((t.drop lo).take (hi + 1 - lo) ++ t.drop (hi + 1)) := by
    rw [← hdd, List.take_append_drop, List.take_append_drop]
  rw [applyRange, List.append_assoc]
  conv_rhs => rw [hsplit]
  exact List.Perm.append_left _ (List.Perm.append_right _ (hf _))

theorem aqsortRec_perm (keys : List Date) :
    ∀ (fuel : Nat) (t : List Nat) (lo hi depth : Nat), lo ≤ hi + 1 →
      (aqsortRec keys t lo hi depth fuel).Perm t
  | 0, t, lo, hi, depth, _ => .refl t
  | fuel + 1, t, lo, hi, depth, hlo => by
    rw [aqsortRec]
    dsimp only
    split
    · exact applyRange_perm t lo hi _ hlo (argInsertionSort_perm keys)
    · split
      · exact applyRange_perm t lo hi _ hlo (argHeapSort_perm keys)
      · rename_i h15 hd
        exact (aqsortRec_perm keys fuel _ _ _ _ (by omega)).trans
          ((aqsortRec_perm keys fuel _ _ _ _ (by omega)).trans
            ((tswap_perm _ _ _).trans
              ((partitionLoop_perm keys _ _ _ _ _).trans
                ((tswap_perm _ _ _).trans
                  ((condSwap_perm _ _ _ _).trans
                    ((condSwap_perm _ _ _ _).trans (condSwap_perm _ _ _ _)))))))

theorem npArgsortQuick_perm (keys : List Date) :
    (npArgsortQuick keys).Perm (List.range keys.length) :=
  aqsortRec_perm keys _ _ _ _ _ (Nat.zero_le _)

/-!
### Stability of the embedded sort on at most 16 keys
-/

theorem dateLt_iff {a b : Date} : dateLt a b = true ↔ a.val < b.val := by
  simp [dateLt]

theorem applyRange_full (t : List Nat) (f : List Nat → List Nat) :
    applyRange t 0 (t.length - 1) f = f t := by
  cases t with
  | nil => simp [applyRange, argInsertionSort]
  | cons x xs =>
    simp [applyRange, List.take_of_length_le, List.drop_eq_nil_of_le]

theorem npArgsortQuick_eq_insertion (keys : List Date) (h : keys.length ≤ 16) :
    npArgsortQuick keys = argInsertionSort keys (List.range keys.length) := by
  have e2 : 2 * keys.length + 2 = (2 * keys.length + 1) + 1 := rfl
  rw [npArgsortQuick, e2, aqsortRec, if_pos (by omega)]
  simpa [List.length_range] using
    applyRange_full (List.range keys.length) (argInsertionSort keys)

theorem argInsert_pairwise (keys : List Date) (x : Nat) :
    ∀ (l : List Nat), (∀ y ∈ l, y < x) → l.Pairwise (stableLex keys) →
      (argInsert keys x l).Pairwise (stableLex keys)
  | [], _, _ => by simp [argInsert, List.pairwise_cons]
  | y :: ys, hb, hp => by
    rw [argInsert]
    rcases List.pairwise_cons.mp hp with ⟨hy, hys⟩
    split
    · rename_i hlt
      rw [dateLt_iff] at hlt
      refine List.pairwise_cons.mpr ⟨?_, hp⟩
      intro z hz
      rcases List.mem_cons.mp hz with rfl | hz
      · exact .inl hlt
      · rcases hy z hz with h | ⟨he, _⟩
        · exact .inl (lt_trans hlt h)
        · exact .inl (by omega)
    · rename_i hnlt
      have hxy : ¬ (keys.getD x default).val < (keys.getD y default).val := by
        simpa [dateLt_iff] using hnlt
      refine List.pairwise_cons.mpr
        ⟨?_, argInsert_pairwise keys x ys (fun z hz => hb z (.tail _ hz)) hys⟩
      intro z hz
      rcases List.mem_cons.mp ((argInsert_perm keys x ys).mem_iff.mp hz) with hzx | hz'
      · rw [hzx]
        rcases Nat.lt_or_ge (keys.getD y default).val (keys.getD x default).val with h | h
        · exact .inl h
        · exact .inr ⟨by omega, hb y (.head _)⟩
      · exact hy z hz'

theorem argInsFold_pairwise (keys : List Date) :
    ∀ (rem acc : List Nat), acc.Pairwise (stableLex keys) → rem.Pairwise (· < ·) →
      (∀ y ∈ acc, ∀ z ∈ rem, y < z) →
      (rem.foldl (fun a x => argInsert keys x a) acc).Pairwise (stableLex keys)
  | [], acc, hacc, _, _ => hacc
  | x :: rem, acc, hacc, hrem, hcross => by
    rcases List.pairwise_cons.mp hrem with ⟨hx, hrem'⟩
    refine argInsFold_pairwise keys rem (argInsert keys x acc) ?_ hrem' ?_
    · exact argInsert_pairwise keys x acc (fun y hy => hcross y hy x (.head _)) hacc
    · intro y hy z hz
      rcases List.mem_cons.mp ((argInsert_perm keys x acc).mem_iff.mp hy) with rfl | hy'
      · exact hx z hz
      · exact hcross y hy' z (.tail _ hz)

theorem argInsertionSort_range_pairwise (keys : List Date) (n : Nat) :
    (argInsertionSort keys (List.range n)).Pairwise (stableLex keys) := by
  refine argInsFold_pairwise keys (List.range n) [] .nil (List.pairwise_lt_range n) ?_
  intro y hy
  simp at hy

/-!
### Characterisation of the cleaner pipeline when every date parses
-/

theorem datedRows_of_parsed :
    ∀ (rows : List CRow), (∀ r ∈ rows, isParsedB (parseDateCell r.date) = true) →
      datedRows rows = rows.map fun r => (r, cellDate r.date)
  | [], _ => rfl
  | r :: rows, h => by
    have hr := h r (.head _)
    have hrec := datedRows_of_parsed rows (fun a ha => h a (.tail _ ha))
    cases hp : parseDateCell r.date with
    | parsed d =>
      simp only [datedRows, dateParsePass, List.map_cons, List.filterMap_cons, hp]
        at hrec ⊢
      simp [hrec, cellDate, hp]
    | missing => rw [hp] at hr; simp [isParsedB] at hr
    | unparseable => rw [hp] at hr; simp [isParsedB] at hr

theorem datedKeys_of_parsed (rows : List CRow)
    (h : ∀ r ∈ rows, isParsedB (parseDateCell r.date) = true) :
    (datedRows rows).map (fun rd => rd.2) = rows.map fun r => cellDate r.date := by
  rw [datedRows_of_parsed rows h, List.map_map]
  rfl

theorem sortedRows_of_parsed (rows : List CRow)
    (h : ∀ r ∈ rows, isParsedB (parseDateCell r.date) = true) :
    sortedRows rows = (npArgsortQuick (rows.map fun r => cellDate r.date)).map
      (fun i => (rows.getD i default, cellDate (rows.getD i default).date)) := by
  rw [sortedRows, datedKeys_of_parsed rows h]
  refine List.map_congr_left ?_
  intro i hi
  have hin : i < rows.length := by
    have hmem := (npArgsortQuick_perm _).mem_iff.mp hi
    rw [List.length_map] at hmem
    exact List.mem_range.mp hmem
  rw [datedRows_of_parsed rows h, List.getD_eq_getElem?_getD, List.getElem?_map,
    List.getElem?_eq_getElem hin]
  simp [List.getD_eq_getElem?_getD, List.getElem?_eq_getElem hin]

theorem formattedRows_of_parsed (rows : List CRow)
    (h : ∀ r ∈ rows, isParsedB (parseDateCell r.date) = true) :
    formattedRows rows = (npArgsortQuick (rows.map fun r => cellDate r.date)).map
      (fun i => { rows.getD i default with
                  date := some (formatDate (cellDate (rows.getD i default).date)) }) := by
  rw [formattedRows, sortedRows_of_parsed rows h, List.map_map]
  rfl

theorem keptRows_of_parsed (rows : List CRow)
    (h : ∀ r ∈ rows, isParsedB (parseDateCell r.date) = true) :
    keptRows rows = ((npArgsortQuick (rows.map fun r => cellDate r.date)).filter
      (fun i => !emptyPlaceCell (rows.getD i default))).map
      (fun i => { rows.getD i default with
                  date := some (formatDate (cellDate (rows.getD i default).date)) }) := by
  rw [keptRows, formattedRows_of_parsed rows h, List.filter_map]
  rfl

theorem finalRows_of_parsed (rows : List CRow) (hasType : Bool)
    (h : ∀ r ∈ rows, isParsedB (parseDateCell r.date) = true) :
    finalRows hasType rows = ((npArgsortQuick (rows.map fun r => cellDate r.date)).filter
      (fun i => !emptyPlaceCell (rows.getD i default))).map
      (fun i => finalRow hasType (rows.getD i default)) := by
  cases hasType with
  | false =>
    rw [finalRows, if_neg (by simp), trimmedRows, keptRows_of_parsed rows h,
      List.map_map]
    rfl
  | true =>
    rw [finalRows, if_pos rfl, trimmedRows, keptRows_of_parsed rows h,
      List.map_map, List.map_map]
    rfl

theorem clean_missing_columns (csv : Csv)
    (h : ¬("date" ∈ csv.cols ∧ "place" ∈ csv.cols)) :
    clean_trip_csv csv = .error (.missingColumns csv.cols) := by
  rw [clean_trip_csv, if_neg h]

theorem clean_ok_of_parsed (csv : Csv)
    (hc : "date" ∈ csv.cols ∧ "place" ∈ csv.cols)
    (hp : ∀ r ∈ csv.rows, isParsedB (parseDateCell r.date) = true) :
    ∃ res, clean_trip_csv csv = .ok res ∧
      res.rows = (keptIdx csv).map
        (fun i => finalRow (csv.cols.contains "type") (csv.rows.getD i default)) := by
  have hany : ((dateParsePass csv.rows).any fun p => p.2 == DateParse.unparseable)
      = false := by
    rw [List.any_eq_false]
    intro p hp'
    rcases List.mem_map.mp (by simpa [dateParsePass] using hp') with ⟨r, hr, rfl⟩
    have := hp r hr
    cases h : parseDateCell r.date <;> simp_all [isParsedB]
  rw [clean_trip_csv, if_pos hc, hany]
  simp only [Bool.false_eq_true, if_false]
  refine ⟨_, rfl, ?_⟩
  simpa [keptIdx] using finalRows_of_parsed csv.rows (csv.cols.contains "type") hp

/-!
### Claims about the CSV normalizer
-/

theorem range_map_getD {α : Type} (l : List α) (d : α) :
    (List.range l.length).map (fun i => l.getD i d) = l := by
  induction l with
  | nil => rfl
  | cons x xs ih =>
    have hstep : ((fun i => (x :: xs).getD i d) ∘ Nat.succ) = fun i => xs.getD i d := rfl
    rw [List.length_cons, List.range_succ_eq_map, List.map_cons, List.map_map, hstep,
      List.getD_cons_zero, ih]

set_option maxRecDepth 8000 in
/-- **C1** (counterexample): on 17 rows that all share the date
`2025-01-01` (places non-blank, so no row is dropped), `clean_trip_csv`
succeeds but emits the rows out of their input order — pandas' default
numpy quicksort partitions ranges of 17 or more elements and is not
stable, so rows with equal dates do not keep their relative order. -/
theorem c1_stability_counterexample :
    (∀ r ∈ csvSameDate17.rows, parseDateCell r.date = .parsed ⟨2025, 1, 1⟩) ∧
    (clean_trip_csv csvSameDate17).toOption.map (fun res => res.rows.map fun r => r.place)
      = some (["0", "14", "13", "12", "11", "10", "9", "15", "8", "6", "5",
               "4", "3", "2", "1", "7", "16"].map some) ∧
    (clean_trip_csv csvSameDate17).toOption.map (fun res => res.rows.map fun r => r.place)
      ≠ some (csvSameDate17.rows.map fun r => r.place) :=
  ⟨by decide, by decide, by decide⟩

/-- **C1** (amended): for every input CSV with at most 16 rows whose dates
all parse, the cleaned output is emitted along an index sequence `σ` into
the input rows that is `stableLex`-sorted: parsed dates non-decreasing,
and rows with equal dates in their original input order.  (numpy
insertion-sorts ranges of at most 16 elements, which is stable; from 17
rows on the quicksort partition breaks stability, see the
counterexample.) -/
theorem c1_sorted_stable_upto16 (csv : Csv)
    (hp : ∀ r ∈ csv.rows, isParsedB (parseDateCell r.date) = true)
    (hlen : csv.rows.length ≤ 16) :
    ∀ res, clean_trip_csv csv = .ok res →
      ∃ σ : List Nat,
        σ.Pairwise (stableLex (csv.rows.map fun r => cellDate r.date)) ∧
        res.rows = σ.map
          (fun i => finalRow (csv.cols.contains "type") (csv.rows.getD i default)) := by
  intro res hres
  by_cases hc : "date" ∈ csv.cols ∧ "place" ∈ csv.cols
  · obtain ⟨res', hok, hrows⟩ := clean_ok_of_parsed csv hc hp
    rw [hok] at hres
    injection hres with h'
    subst h'
    refine ⟨keptIdx csv, ?_, hrows⟩
    have h16 : (csv.rows.map fun r => cellDate r.date).length ≤ 16 := by
      simpa using hlen
    rw [keptIdx, npArgsortQuick_eq_insertion _ h16]
    exact (argInsertionSort_range_pairwise _ _).filter _
  · rw [clean_missing_columns csv hc] at hres
    exact absurd hres (by simp)

/-- **C1** (witness): the amended theorem applied to a concrete three-row
CSV with a duplicated date. -/
theorem c1_sorted_stable_upto16_witness :
    ((∀ r ∈ csvTie.rows, isParsedB (parseDateCell r.date) = true) ∧
      csvTie.rows.length ≤ 16) ∧
    (∀ res, clean_trip_csv csvTie = .ok res →
      ∃ σ : List Nat,
        σ.Pairwise (stableLex (csvTie.rows.map fun r => cellDate r.date)) ∧
        res.rows = σ.map
          (fun i => finalRow (csvTie.cols.contains "type") (csvTie.rows.getD i default))) :=
  ⟨⟨by decide, by decide⟩, c1_sorted_stable_upto16 csvTie (by decide) (by decide)⟩

/-- **C2** (code-bug evidence): on the spec's own example — Paris and
Tokyo rows with parseable dates plus a `bad-date` Rome row —
`pd.to_datetime(..., format='mixed')` raises (its `errors` mode defaults
to raising), the `except` branch prints `✗ Error parsing dates` and calls
`sys.exit(1)`: the run is fatal and no output is written, instead of the
claimed per-row warning for the Rome row and a two-row output. -/
theorem c2_unparseable_date_fatal :
    clean_trip_csv csvRomeExample = .error .dateParseError := rfl

/-- **C3**: the type normalization of `clean_trip_csv` is total and
idempotent: every input value (missing included) maps to `car` or
`flight`; missing values default to `flight`; after lowercasing and
trimming, `{car, drive, driving}` map to `car` and
`{flight, fly, airline, plane}` map to `flight`; every unrecognized
string maps to `flight`; normalizing an already-normalized value changes
nothing; and `["Drive", "FLY", "unknown", "car "]` normalize to
`["car", "flight", "flight", "car"]`. -/
theorem c3_type_normalization :
    (∀ c : Option String, normalizeType c = "car" ∨ normalizeType c = "flight") ∧
    normalizeType none = "flight" ∧
    (∀ s : String, trimStr (toLowerStr s) = "car" ∨ trimStr (toLowerStr s) = "drive" ∨
        trimStr (toLowerStr s) = "driving" → normalizeType (some s) = "car") ∧
    (∀ s : String, trimStr (toLowerStr s) = "flight" ∨ trimStr (toLowerStr s) = "fly" ∨
        trimStr (toLowerStr s) = "airline" ∨ trimStr (toLowerStr s) = "plane" →
        normalizeType (some s) = "flight") ∧
    (∀ s : String, trimStr (toLowerStr s) ∉
        (["car", "drive", "driving", "flight", "fly", "airline", "plane"] : List String) →
        normalizeType (some s) = "flight") ∧
    (∀ c : Option String, normalizeType (some (normalizeType c)) = normalizeType c) ∧
    ["Drive", "FLY", "unknown", "car "].map (fun s => normalizeType (some s))
      = ["car", "flight", "flight", "car"] := by
  have htot : ∀ c : Option String, normalizeType c = "car" ∨ normalizeType c = "flight" := by
    intro c
    rw [normalizeType, typeMapping]
    split_ifs <;> simp
  refine ⟨htot, by decide, ?_, ?_, ?_, ?_, by decide⟩
  · intro s h
    show typeMapping (trimStr (toLowerStr s)) = "car"
    rcases h with h | h | h <;> rw [h] <;> decide
  · intro s h
    show typeMapping (trimStr (toLowerStr s)) = "flight"
    rcases h with h | h | h | h <;> rw [h] <;> decide
  · intro s h
    show typeMapping (trimStr (toLowerStr s)) = "flight"
    rw [typeMapping]
    split_ifs with h1 h2 h3 h4 h5 h6 h7
    · exact absurd (by simp [h1]) h
    · exact absurd (by simp [h2]) h
    · exact absurd (by simp [h3]) h
    all_goals rfl
  · intro c
    rcases htot c with h | h <;> rw [h] <;> decide

/-- **C3** (witness): the normalization theorem applied at concrete
inputs, discharging its hypotheses there. -/
theorem c3_type_normalization_witness :
    normalizeType (some "unknown") = "flight" ∧ normalizeType (some "Drive") = "car" :=
  ⟨c3_type_normalization.2.2.2.2.1 "unknown" (by decide),
   c3_type_normalization.2.2.1 "Drive" (.inr (.inl (by decide)))⟩

/-- **C4** (counterexample): a single-row CSV whose place is
`" Paris "` — parseable date, place non-blank after trimming — is
"already clean" in the claim's sense, yet the cleaner rewrites the place
to `"Paris"`: the output differs beyond date reformatting. -/
theorem c4_roundtrip_counterexample :
    (∀ r ∈ csvPaddedPlace.rows,
      isParsedB (parseDateCell r.date) = true ∧ emptyPlaceCell r = false) ∧
    (clean_trip_csv csvPaddedPlace).toOption.map (fun res => res.rows.map fun r => r.place)
      = some [some "Paris"] ∧
    (clean_trip_csv csvPaddedPlace).toOption.map (fun res => res.rows.map fun r => r.place)
      ≠ some (csvPaddedPlace.rows.map fun r => r.place) :=
  ⟨by decide, by decide, by decide⟩

/-- **C4** (amended): for every input CSV with the required columns whose
dates all parse and whose places are non-blank and already free of
surrounding whitespace, cleaning succeeds, keeps the row count, and the
multiset of (place, date) pairs is preserved with each date reformatted
to `YYYY-MM-DD` — the only changes are the date reformatting and the
date-sort reordering. -/
theorem c4_roundtrip_amended (csv : Csv)
    (hc : "date" ∈ csv.cols ∧ "place" ∈ csv.cols)
    (hp : ∀ r ∈ csv.rows, isParsedB (parseDateCell r.date) = true)
    (hpl : ∀ r ∈ csv.rows, emptyPlaceCell r = false ∧ r.place.map trimStr = r.place) :
    ∃ res, clean_trip_csv csv = .ok res ∧
      res.rows.length = csv.rows.length ∧
      (res.rows.map fun r => (r.place, r.date)).Perm
        (csv.rows.map fun r => (r.place, some (formatDate (cellDate r.date)))) := by
  obtain ⟨res, hok, hrows⟩ := clean_ok_of_parsed csv hc hp
  have hperm0 : (npArgsortQuick (csv.rows.map fun r => cellDate r.date)).Perm
      (List.range csv.rows.length) := by
    simpa using npArgsortQuick_perm (csv.rows.map fun r => cellDate r.date)
  have hkeep : keptIdx csv = npArgsortQuick (csv.rows.map fun r => cellDate r.date) := by
    rw [keptIdx]
    refine List.filter_eq_self.mpr ?_
    intro i hi
    have hin : i < csv.rows.length := List.mem_range.mp (hperm0.mem_iff.mp hi)
    have hmem : csv.rows.getD i default ∈ csv.rows := by
      rw [List.getD_eq_getElem?_getD, List.getElem?_eq_getElem hin]
      exact List.getElem_mem hin
    have hpl1 := (hpl _ hmem).1
    rw [List.getD_eq_getElem?_getD] at hpl1
    simp [hpl1]
  have h3 : (List.range csv.rows.length).map
      (fun i => finalRow (csv.cols.contains "type") (csv.rows.getD i default))
      = csv.rows.map (finalRow (csv.cols.contains "type")) := by
    rw [show (fun i => finalRow (csv.cols.contains "type") (csv.rows.getD i default))
        = (finalRow (csv.cols.contains "type")) ∘ (fun i => csv.rows.getD i default)
        from rfl, ← List.map_map, range_map_getD]
  have h2 : res.rows.Perm (csv.rows.map (finalRow (csv.cols.contains "type"))) := by
    rw [hrows, hkeep, ← h3]
    exact hperm0.map _
  have hpt : ∀ r ∈ csv.rows,
      ((fun r => (r.place, r.date)) ∘ finalRow (csv.cols.contains "type")) r
        = (r.place, some (formatDate (cellDate r.date))) := by
    intro r hr
    have hql := (hpl r hr).2
    rw [Function.comp_apply, finalRow]
    split <;> simp [hql]
  refine ⟨res, hok, ?_, ?_⟩
  · simpa using h2.length_eq
  · have h4 := h2.map (fun r => (r.place, r.date))
    rw [List.map_map, List.map_congr_left hpt] at h4
    exact h4

/-- **C4** (witness): the amended round-trip theorem applied to a concrete
clean two-row CSV. -/
theorem c4_roundtrip_amended_witness :
    (("date" ∈ csvCleanPair.cols ∧ "place" ∈ csvCleanPair.cols) ∧
      (∀ r ∈ csvCleanPair.rows, isParsedB (parseDateCell r.date) = true) ∧
      (∀ r ∈ csvCleanPair.rows,
        emptyPlaceCell r = false ∧ r.place.map trimStr = r.place)) ∧
    (∃ res, clean_trip_csv csvCleanPair = .ok res ∧
      res.rows.length = csvCleanPair.rows.length ∧
      (res.rows.map fun r => (r.place, r.date)).Perm
        (csvCleanPair.rows.map fun r => (r.place, some (formatDate (cellDate r.date))))) :=
  ⟨⟨by decide, by decide, by decide⟩,
   c4_roundtrip_amended csvCleanPair (by decide) (by decide) (by decide)⟩

/-- **C8**: a CSV lacking the `date` column or the `place` column makes
`clean_trip_csv` exit fatally with the found column set reported, before
any output is produced. -/
theorem c8_missing_columns_fatal (csv : Csv)
    (h : "date" ∉ csv.cols ∨ "place" ∉ csv.cols) :
    clean_trip_csv csv = .error (.missingColumns csv.cols) ∧
    ∀ res, clean_trip_csv csv ≠ .ok res := by
  have he := clean_missing_columns csv (by tauto)
  refine ⟨he, fun res hres => ?_⟩
  rw [he] at hres
  exact absurd hres (by simp)

/-- **C8** (witness): the theorem applied to a CSV whose header is
`[day, place]`. -/
theorem c8_missing_columns_fatal_witness :
    ("date" ∉ csvNoDateCol.cols ∨ "place" ∉ csvNoDateCol.cols) ∧
    clean_trip_csv csvNoDateCol = .error (.missingColumns ["day", "place"]) :=
  ⟨by decide, (c8_missing_columns_fatal csvNoDateCol (by decide)).1⟩

/-!
### Claims about the default output path
-/

theorem foldl_lastComp_no_slash :
    ∀ (ys acc : List Char), (∀ c ∈ ys, c ≠ '/') →
      ys.foldl (fun acc c => if c = '/' then [] else acc ++ [c]) acc = acc ++ ys
  | [], acc, _ => by simp
  | c :: ys, acc, h => by
    rw [List.foldl_cons, if_neg (h c (.head _)),
      foldl_lastComp_no_slash ys (acc ++ [c]) (fun a ha => h a (.tail _ ha))]
    simp

theorem lastComponent_append (xs ys : List Char) (h : ∀ c ∈ ys, c ≠ '/') :
    lastComponent (xs ++ '/' :: ys) = ys := by
  rw [lastComponent, List.foldl_append, List.foldl_cons, if_pos rfl]
  simpa using foldl_lastComp_no_slash ys [] h

theorem takeWhile_all_append (p : Char → Bool) :
    ∀ (xs : List Char) (y : Char) (ys : List Char),
      (∀ c ∈ xs, p c = true) → p y = false →
      (xs ++ y :: ys).takeWhile p = xs
  | [], y, ys, _, hy => by simp [List.takeWhile_cons, hy]
  | x :: xs, y, ys, h, hy => by
    rw [List.cons_append, List.takeWhile_cons]
    simp [h x (.head _), takeWhile_all_append p xs y ys (fun c hc => h c (.tail _ hc)) hy]

theorem dropWhile_all_append (p : Char → Bool) :
    ∀ (xs : List Char) (y : Char) (ys : List Char),
      (∀ c ∈ xs, p c = true) → p y = false →
      (xs ++ y :: ys).dropWhile p = y :: ys
  | [], y, ys, _, hy => by simp [List.dropWhile_cons, hy]
  | x :: xs, y, ys, h, hy => by
    rw [List.cons_append, List.dropWhile_cons]
    simp [h x (.head _), dropWhile_all_append p xs y ys (fun c hc => h c (.tail _ hc)) hy]

theorem splitStemSuffix_eq (stem e : List Char)
    (hstem : stem ≠ []) (he : e ≠ [])
    (hds : ∀ c ∈ stem, c ≠ '.') (hde : ∀ c ∈ e, c ≠ '.') :
    splitStemSuffix (stem ++ '.' :: e) = (stem, '.' :: e) := by
  have hrev : (stem ++ '.' :: e).reverse = e.reverse ++ '.' :: stem.reverse := by
    simp [List.reverse_append]
  have hall : ∀ c ∈ e.reverse, (decide (c ≠ '.')) = true := by
    intro c hc
    simpa using hde c (List.mem_reverse.mp hc)
  have hdot : (decide (('.' : Char) ≠ '.')) = false := by decide
  rw [splitStemSuffix, hrev, List.span_eq_take_drop,
    takeWhile_all_append _ _ _ _ hall hdot, dropWhile_all_append _ _ _ _ hall hdot]
  dsimp only
  rw [if_neg (by simp [hstem, he])]
  simp

/-- **C9** (counterexample): for the input path `data/trips.csv`, the
default output path is `trips_clean.csv` — `Path(input).stem` drops the
directory — not the claimed `data/trips_clean.csv` (the input path with
`_clean` inserted before the extension). -/
theorem c9_default_output_counterexample :
    defaultOutputPath "data/trips.csv" = "trips_clean.csv" ∧
    defaultOutputPath "data/trips.csv" ≠ "data/trips_clean.csv" :=
  ⟨by decide, by decide⟩

/-- **C9** (amended): for an input path `<dir>/<name><ext>` (name
non-empty and dot-free, extension of the pathlib form `.xyz`), the default
output is `<name>_clean<ext>`: `_clean` is inserted before the extension,
but the directory part of the input path is dropped. -/
theorem c9_default_output_amended (dir name ext : String)
    (hname : name.data ≠ [])
    (hslash : ∀ c ∈ name.data ++ ext.data, c ≠ '/')
    (hdot : ∀ c ∈ name.data, c ≠ '.')
    (hext : ∃ e, ext.data = '.' :: e ∧ e ≠ [] ∧ ∀ c ∈ e, c ≠ '.') :
    defaultOutputPath (dir ++ "/" ++ name ++ ext) = name ++ "_clean" ++ ext := by
  obtain ⟨e, he, hne, hde⟩ := hext
  have hdata : (dir ++ "/" ++ name ++ ext).toList
      = dir.data ++ '/' :: (name.data ++ ext.data) := by
    simp [String.toList, String.data_append]
  rw [defaultOutputPath, hdata, lastComponent_append _ _ hslash, he,
    splitStemSuffix_eq name.data e hname hne hdot hde]
  refine String.ext ?_
  simp [String.data_append, he]

/-- **C9** (witness): the amended theorem at `data` / `trips` / `.csv`. -/
theorem c9_default_output_amended_witness :
    ("trips".data ≠ [] ∧ (∀ c ∈ "trips".data ++ ".csv".data, c ≠ '/') ∧
      (∀ c ∈ "trips".data, c ≠ '.')) ∧
    defaultOutputPath ("data" ++ "/" ++ "trips" ++ ".csv") = "trips" ++ "_clean" ++ ".csv" :=
  ⟨⟨by decide, by decide, by decide⟩,
   c9_default_output_amended "data" "trips" ".csv" (by decide) (by decide) (by decide)
     ⟨['c', 's', 'v'], by decide, by decide, by decide⟩⟩

/-!
### Claims about the map builders
-/

theorem buildValidRows_mem_isSome (g : Geocoder) (csv : Csv) (v : List (Nat × GRow))
    (h : buildValidRows g csv = .ok v) :
    ∀ p ∈ v, p.2.lat.isSome = true ∧ p.2.lon.isSome = true := by
  rw [buildValidRows] at h
  split at h
  · dsimp only at h
    split at h <;>
    · split at h
      · simp at h
      · split at h
        · simp at h
        · injection h with h'
          subst h'
          intro p hp
          simpa using (List.mem_filter.mp hp).2
  · simp at h

theorem anim_ok_elim (g : Geocoder) (google osrm : Router) (key : Option String)
    (csv : Csv) (m : AnimMap)
    (h : create_animated_trip_map g google osrm key csv = .ok m) :
    buildValidRows g csv = .ok m.valid ∧
    m.markers = m.valid.map (fun p => animMarker m.valid.length p.1 p.2) ∧
    m.segments = (List.range (m.valid.length - 1)).map (fun i =>
      (animLeg google osrm key i (m.valid.getD i default).2
        (m.valid.getD (i + 1) default).2).1) ∧
    m.polylines = (List.range (m.valid.length - 1)).map (fun i =>
      (animLeg google osrm key i (m.valid.getD i default).2
        (m.valid.getD (i + 1) default).2).2) := by
  rw [create_animated_trip_map] at h
  cases hb : buildValidRows g csv with
  | error e => rw [hb] at h; simp at h
  | ok valid =>
    rw [hb] at h
    dsimp only at h
    split at h
    · simp at h
    · injection h with h'
      subst h'
      exact ⟨rfl, rfl, rfl, rfl⟩

theorem basic_ok_elim (g : Geocoder) (google osrm : Router) (key : Option String)
    (csv : Csv) (m : BasicMap)
    (h : create_trip_map g google osrm key csv = .ok m) :
    buildValidRows g csv = .ok m.valid ∧
    m.markers = m.valid.map (fun p =>
      BMarker.mk (coordsOf p.2)
        (if p.1 = 0 then "red" else if p.1 = m.valid.length - 1 then "green" else "blue")
        (p.1 + 1)) ∧
    m.polylines = (List.range (m.valid.length - 1)).map (fun i =>
      basicLeg google osrm key (m.valid.getD i default).2
        (m.valid.getD (i + 1) default).2) := by
  rw [create_trip_map] at h
  cases hb : buildValidRows g csv with
  | error e => rw [hb] at h; simp at h
  | ok valid =>
    rw [hb] at h
    dsimp only at h
    split at h
    · simp at h
    · injection h with h'
      subst h'
      exact ⟨rfl, rfl, rfl⟩

/-- **C5**: `geocode_places` records `(None, None)` coordinates for every
place the provider does not find or for which it raises, and continues —
the result keeps one row per input row, so a per-row failure never aborts
the batch — and every row left with null coordinates is excluded from all
subsequent map and route construction: `df_valid` rows all carry
coordinates, markers are exactly the `df_valid` rows, and segments join
consecutive `df_valid` rows only. -/
theorem c5_geocode_failures_recorded (g : Geocoder) (rows : List SRow) :
    (geocode_places g rows).length = rows.length ∧
    (∀ (i : Nat) (r : SRow), rows[i]? = some r → g r.row.place = .notFound →
      ((geocode_places g rows)[i]?).map (fun x : GRow => (x.lat, x.lon))
        = some (none, none)) ∧
    (∀ (i : Nat) (r : SRow) (ex : String), rows[i]? = some r → g r.row.place = .geoError ex →
      ((geocode_places g rows)[i]?).map (fun x : GRow => (x.lat, x.lon))
        = some (none, none)) ∧
    (∀ (google osrm : Router) (key : Option String) (csv : Csv) (m : AnimMap),
      create_animated_trip_map g google osrm key csv = .ok m →
      (∀ p ∈ m.valid, p.2.lat.isSome = true ∧ p.2.lon.isSome = true) ∧
      m.markers.length = m.valid.length ∧
      m.segments.length = m.valid.length - 1 ∧
      (∀ (i : Nat) (mk : CMarker), m.markers[i]? = some mk →
        ∃ p : Nat × GRow, m.valid[i]? = some p ∧ mk.loc = coordsOf p.2) ∧
      (∀ (i : Nat) (sg : Seg), m.segments[i]? = some sg → i + 1 < m.valid.length ∧
        sg.start_idx = i ∧ sg.end_idx = i + 1 ∧
        sg.start_place = (m.valid.getD i default).2.row.place ∧
        sg.end_place = (m.valid.getD (i + 1) default).2.row.place)) := by
  refine ⟨by simp [geocode_places], ?_, ?_, ?_⟩
  · intro i r hir hnf
    rw [geocode_places, List.getElem?_map, hir]
    simp [hnf]
  · intro i r ex hir herr
    rw [geocode_places, List.getElem?_map, hir]
    simp [herr]
  · intro google osrm key csv m hok
    obtain ⟨hb, hmk, hsg, _⟩ := anim_ok_elim g google osrm key csv m hok
    refine ⟨buildValidRows_mem_isSome g csv m.valid hb, ?_, ?_, ?_, ?_⟩
    · rw [hmk, List.length_map]
    · rw [hsg, List.length_map, List.length_range]
    · intro i mk hmki
      rw [hmk, List.getElem?_map] at hmki
      cases hv : m.valid[i]? with
      | none => rw [hv] at hmki; simp at hmki
      | some p =>
        rw [hv] at hmki
        simp only [Option.map_some'] at hmki
        injection hmki with hmk'
        exact ⟨p, rfl, by rw [← hmk']; rfl⟩
    · intro i sg hsgi
      rw [hsg, List.getElem?_map] at hsgi
      rcases Nat.lt_or_ge i (m.valid.length - 1) with hlt | hge
      · rw [List.getElem?_range hlt] at hsgi
        simp only [Option.map_some'] at hsgi
        injection hsgi with hsg'
        subst hsg'
        exact ⟨by omega, rfl, rfl, rfl, rfl⟩
      · rw [List.getElem?_eq_none (by simpa using hge)] at hsgi
        simp at hsgi

/-- **C5** (witness): the theorem applied to a one-row batch whose only
place is not found. -/
theorem c5_geocode_failures_recorded_witness :
    (geocode_places (fun _ => GeoOutcome.notFound) [srowNowhere]).length = 1 ∧
    ((geocode_places (fun _ => GeoOutcome.notFound) [srowNowhere])[0]?).map
      (fun x : GRow => (x.lat, x.lon)) = some (none, none) :=
  ⟨(c5_geocode_failures_recorded (fun _ => GeoOutcome.notFound) [srowNowhere]).1,
   (c5_geocode_failures_recorded (fun _ => GeoOutcome.notFound) [srowNowhere]).2.1
     0 srowNowhere rfl rfl⟩

/-- **C6** (counterexample): a car leg whose routing call raises a
transport error is drawn by `create_animated_trip_map` as the straight
2-point line in the same SOLID green style as a fetched route
(`dash_array` absent) — not as the claimed dashed straight line. -/
theorem c6_fallback_not_dashed_counterexample :
    (create_animated_trip_map geoFixture routerDown routerDown none csvCarLeg).map
      (fun m => (m.segments.map Seg.coords, m.polylines.map PolyL.dash,
                 m.polylines.map PolyL.color))
      = .ok ([[(1, 1), (2, 2)]], [none], ["green"]) :=
  rfl

/-- **C6** (amended): `get_driving_route` absorbs every non-OK status and
every raised exception of the selected provider (Google when a truthy key
is configured, OSRM otherwise) into `None`, never raising past the
boundary; the affected car leg degrades to the straight 2-point line
between its endpoints — rendered by `create_animated_trip_map` in the
same solid green style as a routed leg, and by `create_trip_map` as a
dashed green line (`'5, 5'`) — and a routing failure never aborts the
run: the builder's success is independent of the routing oracles. -/
theorem c6_routing_failure_degrades (google osrm : Router) (key : Option String) :
    (∀ s e st, key.getD "" = "" → osrm s e = .badStatus st →
        get_driving_route google osrm s e key = none) ∧
    (∀ s e ex, key.getD "" = "" → osrm s e = .exnRaised ex →
        get_driving_route google osrm s e key = none) ∧
    (∀ s e st, key.getD "" ≠ "" → google s e = .badStatus st →
        get_driving_route google osrm s e key = none) ∧
    (∀ s e ex, key.getD "" ≠ "" → google s e = .exnRaised ex →
        get_driving_route google osrm s e key = none) ∧
    (∀ (g : Geocoder) (csv : Csv) (m : AnimMap) (i : Nat) (sg : Seg)
        (p q : Nat × GRow),
      create_animated_trip_map g google osrm key csv = .ok m →
      m.segments[i]? = some sg → sg.is_car = true →
      m.valid[i]? = some p → m.valid[i + 1]? = some q →
      get_driving_route google osrm (coordsOf p.2) (coordsOf q.2) key = none →
      sg.coords = [coordsOf p.2, coordsOf q.2] ∧
      m.polylines[i]? = some
        ⟨[coordsOf p.2, coordsOf q.2], "green", 4, 6/10, none⟩) ∧
    (∀ (g : Geocoder) (csv : Csv) (m : BasicMap) (i : Nat) (p q : Nat × GRow),
      create_trip_map g google osrm key csv = .ok m →
      m.valid[i]? = some p → m.valid[i + 1]? = some q →
      isCarType (tripTypeOf p.2) = true →
      get_driving_route google osrm (coordsOf p.2) (coordsOf q.2) key = none →
      m.polylines[i]? = some
        ⟨[coordsOf p.2, coordsOf q.2], "green", 3, 6/10, some "5, 5"⟩) ∧
    (∀ (g : Geocoder) (csv : Csv) (google2 osrm2 : Router) (key2 : Option String),
      (create_animated_trip_map g google osrm key csv).isOk
        = (create_animated_trip_map g google2 osrm2 key2 csv).isOk) := by
  refine ⟨?_, ?_, ?_, ?_, ?_, ?_, ?_⟩
  · intro s e st hk hr
    rw [get_driving_route, if_pos hk, hr]
  · intro s e ex hk hr
    rw [get_driving_route, if_pos hk, hr]
  · intro s e st hk hr
    rw [get_driving_route, if_neg hk, hr]
  · intro s e ex hk hr
    rw [get_driving_route, if_neg hk, hr]
  · intro g csv m i sg p q hok hsgi hcar hp hq hroute
    obtain ⟨_, _, hseg, hpol⟩ := anim_ok_elim g google osrm key csv m hok
    have hpd : m.valid.getD i default = p := by
      rw [List.getD_eq_getElem?_getD, hp]
      rfl
    have hqd : m.valid.getD (i + 1) default = q := by
      rw [List.getD_eq_getElem?_getD, hq]
      rfl
    rw [hseg, List.getElem?_map] at hsgi
    rcases Nat.lt_or_ge i (m.valid.length - 1) with hlt | hge
    · rw [List.getElem?_range hlt] at hsgi
      simp only [Option.map_some'] at hsgi
      injection hsgi with hsg'
      subst hsg'
      rw [hpd, hqd] at hcar ⊢
      constructor
      · show (animLeg google osrm key i p.2 q.2).1.coords = _
        rw [animLeg]
        dsimp only
        rw [if_pos ?hc1]
        case hc1 =>
          have : (animLeg google osrm key i p.2 q.2).1.is_car
              = isCarType (tripTypeOf p.2) := rfl
          rw [this] at hcar
          exact hcar
        rw [hroute]
        rfl
      · rw [hpol, List.getElem?_map, List.getElem?_range hlt]
        simp only [Option.map_some']
        congr 1
        rw [hpd, hqd]
        show (animLeg google osrm key i p.2 q.2).2 = _
        rw [animLeg]
        dsimp only
        have hcar' : isCarType (tripTypeOf p.2) = true := by
          have : (animLeg google osrm key i p.2 q.2).1.is_car
              = isCarType (tripTypeOf p.2) := rfl
          rw [this] at hcar
          exact hcar
        rw [if_pos hcar', if_pos hcar', hroute]
        rfl
    · rw [List.getElem?_eq_none (by simpa using hge)] at hsgi
      simp at hsgi
  · intro g csv m i p q hok hp hq hcar hroute
    obtain ⟨_, _, hpol⟩ := basic_ok_elim g google osrm key csv m hok
    have hpd : m.valid.getD i default = p := by
      rw [List.getD_eq_getElem?_getD, hp]
      rfl
    have hqd : m.valid.getD (i + 1) default = q := by
      rw [List.getD_eq_getElem?_getD, hq]
      rfl
    have hlt : i < m.valid.length - 1 := by
      obtain ⟨hlen, -⟩ := List.getElem?_eq_some_iff.mp hq
      omega
    rw [hpol, List.getElem?_map, List.getElem?_range hlt]
    simp only [Option.map_some']
    congr 1
    rw [hpd, hqd, basicLeg]
    rw [if_pos hcar, hroute]
  · intro g csv google2 osrm2 key2
    rw [create_animated_trip_map, create_animated_trip_map]
    cases buildValidRows g csv with
    | error e => rfl
    | ok valid =>
      dsimp only
      by_cases hnat : (valid.any fun p => p.2.pdate == DateParse.missing) = true
      · rw [if_pos hnat, if_pos hnat]
      · rw [if_neg hnat, if_neg hnat]
        rfl

/-- **C6** (witness): the amended theorem applied at concrete inputs: a
transport error on the OSRM branch yields `None` from the route resolver,
and the concrete failed car leg of `csvCarLeg` keeps the straight path. -/
theorem c6_routing_failure_degrades_witness :
    get_driving_route routerDown routerDown (1, 1) (2, 2) none = none ∧
    ((create_animated_trip_map geoFixture routerDown routerDown none csvCarLeg).isOk
      = (create_animated_trip_map geoFixture (fun _ _ => .okRoute [(5, 5)])
          (fun _ _ => .okRoute [(5, 5)]) (some "k") csvCarLeg).isOk) :=
  ⟨(c6_routing_failure_degrades routerDown routerDown none).2.1 (1, 1) (2, 2)
      "ConnectionError" rfl rfl,
   (c6_routing_failure_degrades routerDown routerDown none).2.2.2.2.2.2 geoFixture
      csvCarLeg (fun _ _ => .okRoute [(5, 5)]) (fun _ _ => .okRoute [(5, 5)])
      (some "k")⟩

/-- **C7** (code-bug evidence): three rows of which the first fails to
geocode.  `df_valid = df.dropna(...)` keeps the frame indices 1 and 2, and
`df_valid.iterrows()` feeds those retained indices — not positions within
`df_valid` — into the color rule `red if idx == 0 else green if idx ==
len(df_valid) - 1 else blue`.  The first valid row is therefore drawn
GREEN (its index 1 equals `len(df_valid) - 1`), the last valid row BLUE,
no marker is red, and the popups read "Stop 2 of 2" and "Stop 3 of 2".
`create_trip_map` colors its pins with the same formula. -/
theorem c7_marker_colors_bug :
    (create_animated_trip_map geoFixture routerDown routerDown none csvDropFirst).map
      (fun m => (m.markers.map CMarker.fillColor,
                 m.markers.map (fun mk => (mk.stopNo, mk.stopOf))))
      = .ok (["green", "blue"], [(2, 2), (3, 2)]) ∧
    (create_trip_map geoFixture routerDown routerDown none csvDropFirst).map
      (fun m => m.markers.map BMarker.iconColor) = .ok ["green", "blue"] :=
  ⟨rfl, rfl⟩

/-- **C10**: the transport mode of every leg is determined solely by the
start row of the consecutive pair: `segments[i].is_car` equals the car
test applied to the `type` value of `df_valid` row `i`
(`str(x).lower().strip() ∈ {car, drive, driving}`); the end row's type
plays no role in the equation, and a missing/NaN start type yields a
flight leg. -/
theorem c10_leg_mode_from_start_row (g : Geocoder) (google osrm : Router)
    (key : Option String) (csv : Csv) (m : AnimMap)
    (hok : create_animated_trip_map g google osrm key csv = .ok m)
    (i : Nat) (sg : Seg) (hsg : m.segments[i]? = some sg) :
    sg.is_car = isCarType (tripTypeOf (m.valid.getD i default).2) ∧
    ((m.valid.getD i default).2.row.ty = none → sg.is_car = false) := by
  obtain ⟨_, _, hseg, _⟩ := anim_ok_elim g google osrm key csv m hok
  rw [hseg, List.getElem?_map] at hsg
  rcases Nat.lt_or_ge i (m.valid.length - 1) with hlt | hge
  · rw [List.getElem?_range hlt] at hsg
    simp only [Option.map_some'] at hsg
    injection hsg with hsg'
    subst hsg'
    have hcar : (animLeg google osrm key i (m.valid.getD i default).2
        (m.valid.getD (i + 1) default).2).1.is_car
        = isCarType (tripTypeOf (m.valid.getD i default).2) := rfl
    refine ⟨hcar, ?_⟩
    intro hnone
    rw [hcar]
    simp only [tripTypeOf, hnone]
    decide
  · rw [List.getElem?_eq_none (by simpa using hge)] at hsg
    simp at hsg

/-- **C10** (witness): the theorem applied to the concrete `csvDriveLeg`
trip, whose first row's free-text type `Drive` yields a car leg. -/
theorem c10_leg_mode_from_start_row_witness :
    (create_animated_trip_map geoFixture routerDown routerDown none csvDriveLeg
      = .ok animDriveLeg) ∧
    animDriveLeg.segments[0]? = some segDriveLeg ∧
    segDriveLeg.is_car = isCarType (tripTypeOf (animDriveLeg.valid.getD 0 default).2) ∧
    segDriveLeg.is_car = true :=
  ⟨rfl, rfl,
   (c10_leg_mode_from_start_row geoFixture routerDown routerDown none csvDriveLeg
      animDriveLeg rfl 0 segDriveLeg rfl).1,
   rfl⟩
